import Mathlib

/-!
Shallow embedding of the sp500-scanner repository's valuation and
technical-signal computations, and proofs checking the specification's
claims against them.

Numeric values are modelled as exact rationals (`ℚ`).  Where a claim
depends on IEEE floating-point special values (the RSI division by a
zero loss producing infinity), a small extended-value type `FVal`
mirrors the float semantics of the operations actually used; all
quantities involved at those boundary cases are exact in binary
floating point, so the rational model is faithful there.
-/

namespace SP500

/-- Equality of fallible results is decidable when both components'
equality is. -/
instance instDecEqExcept {ε α : Type} [DecidableEq ε] [DecidableEq α] :
    DecidableEq (Except ε α)
  | .ok a, .ok b => decidable_of_iff (a = b) (by simp)
  | .ok _, .error _ => .isFalse (fun h => Except.noConfusion h)
  | .error _, .ok _ => .isFalse (fun h => Except.noConfusion h)
  | .error e, .error f => decidable_of_iff (e = f) (by simp)

/-! ## Discounted cash flow (src/discounted_cash_flow.py) -/

namespace DiscountedCashFlow

/-- Error outcomes of `calculate_dcf_value`.  The source signals each of
these by printing a message and returning `None`; the messages are
distinct, so the outcomes are distinguishable and modelled as variants.
`indexError` models the uncaught `IndexError` that `projected_fcf[-1]`
raises when `years_to_project = 0` (the explicit projection list is
empty). -/
inductive DCFError where
  | missingFCF : DCFError
  | invalidAssumption : DCFError
  | missingShareCount : DCFError
  | indexError : DCFError
deriving DecidableEq, Repr

/-- Step 1 of `calculate_dcf_value`: the iterative explicit-period
projection.  Year 1 is `current_fcf * (1 + g)`; every later year is the
previous projected value times `(1 + g)`. -/
def projected_fcf (current_fcf g : ℚ) : ℕ → List ℚ
  | 0 => []
  | n + 1 =>
    let prev := projected_fcf current_fcf g n
    prev ++ [prev.getLastD current_fcf * (1 + g)]

/-- Step 2: present value of each projected flow,
`pv[i] = fcf[i] / (1 + r)^(i+1)` (Python `enumerate`, `i` from 0). -/
def pv_fcf (r : ℚ) (projected : List ℚ) : List ℚ :=
  (List.range projected.length).map (fun i => projected.getD i 0 / (1 + r) ^ (i + 1))

/-- Full run of `calculate_dcf_value` over supplied scalars, in source
order, returning the result together with the list of numeric
intermediates the source prints (projected flows, PV of the explicit
period, then — only after the rate check passes — terminal value, its
present value, enterprise value, and finally equity value and the
per-share value).  `fcf`, `cash`, `debt`, `shares` model provider data
that may be absent; the source defaults absent cash/debt to `0` via
`info.get(..., 0)` and aborts on absent shares.  Note the source checks
`discount_rate <= terminal_growth_rate` only after projecting and
present-valuing the explicit period. -/
def calculate_dcf_run (fcf : Option ℚ) (years : ℕ) (g r tg : ℚ)
    (cash debt : Option ℚ) (shares : Option ℚ) :
    Except DCFError ℚ × List ℚ :=
  match fcf with
  | none => (.error .missingFCF, [])
  | some c =>
    let projected := projected_fcf c g years
    let pvExplicit := (pv_fcf r projected).sum
    let trace0 := projected ++ [pvExplicit]
    match projected.getLast? with
    | none => (.error .indexError, trace0)
    | some lastFcf =>
      if r ≤ tg then (.error .invalidAssumption, trace0)
      else
        let tv := lastFcf * (1 + tg) / (r - tg)
        let pvTv := tv / (1 + r) ^ years
        let ev := pvExplicit + pvTv
        let trace1 := trace0 ++ [tv, pvTv, ev]
        match shares with
        | none => (.error .missingShareCount, trace1)
        | some s =>
          if s = 0 then (.error .missingShareCount, trace1)
          else
            let equity := ev + cash.getD 0 - debt.getD 0
            (.ok (equity / s), trace1 ++ [equity, equity / s])

/-- The value returned by `calculate_dcf_value` (the printed trace
projected away). -/
def calculate_dcf_value (fcf : Option ℚ) (years : ℕ) (g r tg : ℚ)
    (cash debt : Option ℚ) (shares : Option ℚ) : Except DCFError ℚ :=
  (calculate_dcf_run fcf years g r tg cash debt shares).1

end DiscountedCashFlow

/-! ## Closed-form characterization of the iterative projection -/

namespace DiscountedCashFlow

lemma getLastD_map_range_succ (f : ℕ → ℚ) (n : ℕ) (d : ℚ) :
    ((List.range (n + 1)).map f).getLastD d = f n := by
  rw [List.range_succ, List.map_append]
  simp

/-- The iterative projection equals the closed form
`fcf[i] = current_fcf * (1 + g)^(i+1)`. -/
lemma projected_fcf_eq_closed (c g : ℚ) (n : ℕ) :
    projected_fcf c g n = (List.range n).map (fun i => c * (1 + g) ^ (i + 1)) := by
  induction n with
  | zero => simp [projected_fcf]
  | succ m ih =>
    rw [projected_fcf, ih, List.range_succ, List.map_append]
    cases m with
    | zero => simp [List.getLastD]
    | succ k =>
      rw [getLastD_map_range_succ]
      simp only [List.map_cons, List.map_nil, List.append_cancel_left_eq,
        List.cons.injEq, and_true]
      ring

lemma projected_fcf_length (c g : ℚ) (n : ℕ) :
    (projected_fcf c g n).length = n := by
  rw [projected_fcf_eq_closed]; simp

lemma projected_fcf_getLast (c g : ℚ) (n : ℕ) (hn : 1 ≤ n) :
    (projected_fcf c g n).getLast? = some (c * (1 + g) ^ n) := by
  obtain ⟨m, rfl⟩ := Nat.exists_eq_add_of_le hn
  rw [projected_fcf_eq_closed, Nat.add_comm 1 m, List.range_succ, List.map_append]
  simp

lemma getD_map_range (f : ℕ → ℚ) (n i : ℕ) (hi : i < n) :
    ((List.range n).map f).getD i 0 = f i := by
  rw [List.getD_eq_getElem?_getD, List.getElem?_map, List.getElem?_range hi]
  rfl

/-- Present-valuing the closed-form projection gives the closed-form
discounted flows. -/
lemma pv_fcf_closed (c g r : ℚ) (n : ℕ) :
    pv_fcf r (projected_fcf c g n) =
      (List.range n).map (fun i => c * (1 + g) ^ (i + 1) / (1 + r) ^ (i + 1)) := by
  rw [pv_fcf, projected_fcf_eq_closed]
  simp only [List.length_map, List.length_range]
  apply List.map_congr_left
  intro i hi
  rw [List.mem_range] at hi
  rw [getD_map_range _ _ _ hi]

/-- Closed form of the whole standalone DCF computation in the
successful case (helper shared by several theorems below). -/
lemma dcf_value_ok (c g r tg cash debt s : ℚ) (years : ℕ)
    (hy : 1 ≤ years) (htg : tg < r) (hs : s ≠ 0) :
    calculate_dcf_value (some c) years g r tg (some cash) (some debt) (some s) =
      Except.ok
        ((((List.range years).map
              (fun i => c * (1 + g) ^ (i + 1) / (1 + r) ^ (i + 1))).sum +
            c * (1 + g) ^ years * (1 + tg) / (r - tg) / (1 + r) ^ years +
            cash - debt) / s) := by
  have hlast := projected_fcf_getLast c g years hy
  have hnle : ¬ r ≤ tg := not_le.mpr htg
  simp only [calculate_dcf_value, calculate_dcf_run, hlast, hnle, if_false,
    pv_fcf_closed, Option.getD_some, hs, if_neg hs]

end DiscountedCashFlow

/-! ## Dividend discount model (src/intrinsic_value.py) -/

/-- Error outcomes of the DDM functions; the source signals them by
distinct printed messages plus a `None` return. -/
inductive DDMError where
  | noDividendData : DDMError
  | invalidAssumption : DDMError
deriving DecidableEq, Repr

namespace IntrinsicValue

/-- `calculate_intrinsic_value` over the fetched dividend history: the
empty-history check comes first, then the latest dividend is taken
(`dividends.iloc[-1]`), then the `required <= growth` check, then
`d * (1 + g) / (r - g)`. -/
def calculate_intrinsic_value (dividends : List ℚ) (g r : ℚ) :
    Except DDMError ℚ :=
  if dividends.isEmpty then .error .noDividendData
  else
    let latest := dividends.getLastD 0
    if r ≤ g then .error .invalidAssumption
    else .ok (latest * (1 + g) / (r - g))

end IntrinsicValue

/-! ## Stock dashboard (src/stock_dashboard.py) -/

namespace StockDashboard

open DiscountedCashFlow (DCFError)

/-- `calculate_ddm_value` of the dashboard: same structure as
`calculate_intrinsic_value` (empty-history check first, then the rate
check, then the Gordon growth formula). -/
def calculate_ddm_value (dividends : List ℚ) (g r : ℚ) :
    Except DDMError ℚ :=
  if dividends.isEmpty then .error .noDividendData
  else
    let latest := dividends.getLastD 0
    if r ≤ g then .error .invalidAssumption
    else .ok (latest * (1 + g) / (r - g))

/-- The dashboard's closed-form 5-year projection:
`[free_cash_flow * (1 + growth_rate) ** i for i in range(1, 6)]`. -/
def future_fcf (c g : ℚ) : List ℚ :=
  (List.range' 1 5).map (fun i => c * (1 + g) ^ i)

/-- Enterprise value as computed inside `perform_dcf_analysis`:
discounted explicit flows plus discounted terminal value (horizon fixed
at 5 years in the source). -/
def enterpriseValue (c g r tg : ℚ) : ℚ :=
  let future := future_fcf c g
  let terminal_value := future.getLastD 0 * (1 + tg) / (r - tg)
  let discounted :=
    (List.range future.length).map (fun i => future.getD i 0 / (1 + r) ^ (i + 1))
  discounted.sum + terminal_value / (1 + r) ^ 5

/-- `perform_dcf_analysis` over supplied scalars, in source order: the
rate check comes first (before anything is computed), then the FCF
availability check, then the 5-year closed-form DCF.  Absent debt/cash
default to `0`; absent shares default to `1`
(`info.get('sharesOutstanding', 1)`), and only an explicit `0` share
count is rejected. -/
def perform_dcf_analysis (g r tg : ℚ) (fcf : Option ℚ)
    (debt cash : Option ℚ) (shares : Option ℚ) : Except DCFError ℚ :=
  if r ≤ tg then .error .invalidAssumption
  else
    match fcf with
    | none => .error .missingFCF
    | some c =>
      let ev := enterpriseValue c g r tg
      let total_debt := debt.getD 0
      let cash_eq := cash.getD 0
      let shares_outstanding := shares.getD 1
      if shares_outstanding = 0 then .error .missingShareCount
      else .ok ((ev - total_debt + cash_eq) / shares_outstanding)

end StockDashboard

/-! ## Extended values for the RSI float semantics

The RSI code divides a rolling mean of gains by a rolling mean of
losses in floating point; when the loss mean is exactly `0.0` the
quotient is `+inf` (or NaN for `0.0/0.0`), which then propagates
through `100 - 100/(1 + rs)`.  `FVal` models a float as an exact
rational, `+inf`, `-inf`, or NaN, with the IEEE rules for the
operations the formula uses (there is no negative zero in the model;
the rolling means here are quotients of sums of non-negative numbers,
so only `+0` arises). -/

inductive FVal where
  | fin : ℚ → FVal
  | posInf : FVal
  | negInf : FVal
  | nan : FVal
deriving DecidableEq, Repr

namespace FVal

def neg : FVal → FVal
  | fin a => fin (-a)
  | posInf => negInf
  | negInf => posInf
  | nan => nan

def add : FVal → FVal → FVal
  | nan, _ => nan
  | _, nan => nan
  | posInf, negInf => nan
  | negInf, posInf => nan
  | posInf, _ => posInf
  | _, posInf => posInf
  | negInf, _ => negInf
  | _, negInf => negInf
  | fin a, fin b => fin (a + b)

def sub (a b : FVal) : FVal := add a (neg b)

def div : FVal → FVal → FVal
  | nan, _ => nan
  | _, nan => nan
  | fin a, fin b =>
    if b = 0 then (if a = 0 then nan else if 0 < a then posInf else negInf)
    else fin (a / b)
  | fin _, posInf => fin 0
  | fin _, negInf => fin 0
  | posInf, fin b => if 0 ≤ b then posInf else negInf
  | negInf, fin b => if 0 ≤ b then negInf else posInf
  | _, _ => nan

end FVal

namespace StockDashboard

/-! ### RSI (`calculate_rsi`) -/

/-- `data['Close'].diff()` at position `t`: `close[t] - close[t-1]`,
undefined (NaN) at `t = 0` and outside the series. -/
def deltaAt (close : List ℚ) (t : ℕ) : Option ℚ :=
  if 1 ≤ t ∧ t < close.length then some (close.getD t 0 - close.getD (t - 1) 0)
  else none

/-- `delta.where(delta > 0, 0)`: keep positive deltas, everything else —
including the NaN at position 0, for which `delta > 0` is `False` —
becomes `0`. -/
def gainAt (close : List ℚ) (t : ℕ) : ℚ :=
  match deltaAt close t with
  | some d => if 0 < d then d else 0
  | none => 0

/-- `(-delta).where(delta < 0, 0)`: keep `-delta` where the delta is
negative, everything else (again including the position-0 NaN) becomes
`0`. -/
def lossAt (close : List ℚ) (t : ℕ) : ℚ :=
  match deltaAt close t with
  | some d => if d < 0 then -d else 0
  | none => 0

/-- The RSI series of `calculate_rsi` at position `t` for window `w`:
rolling means of the gain and loss series over the `w` samples ending
at `t`, then `rs = gain/loss` and `RSI = 100 - 100/(1 + rs)` with float
semantics.  `none` models the NaN prefix where the rolling window is
not yet full. -/
def rsiAt (close : List ℚ) (w t : ℕ) : Option FVal :=
  if w ≤ t + 1 ∧ t < close.length then
    let g := ((List.range w).map (fun j => gainAt close (t - j))).sum / (w : ℚ)
    let l := ((List.range w).map (fun j => lossAt close (t - j))).sum / (w : ℚ)
    let rs := FVal.div (.fin g) (.fin l)
    some (FVal.sub (.fin 100) (FVal.div (.fin 100) (FVal.add (.fin 1) rs)))
  else none

/-! ### Fibonacci levels (`calculate_fibonacci_levels` and the
`closest_level` selection in the Technicals tab) -/

/-- `Series.max()`: `none` on an empty series (pandas NaN). -/
def seriesMax : List ℚ → Option ℚ
  | [] => none
  | x :: xs => some (xs.foldl max x)

/-- `Series.min()`: `none` on an empty series (pandas NaN). -/
def seriesMin : List ℚ → Option ℚ
  | [] => none
  | x :: xs => some (xs.foldl min x)

/-- The levels dict of `calculate_fibonacci_levels`, in insertion
order, from the max of the High column and the min of the Low column.
The source's float literals `0.236`, `0.382`, `0.618` are the exact
rationals here. -/
def calculate_fibonacci_levels (highs lows : List ℚ) :
    Option (List (String × ℚ)) :=
  match seriesMax highs, seriesMin lows with
  | some max_price, some min_price =>
    let diff := max_price - min_price
    some [("0% (High)", max_price),
          ("23.6%", max_price - 236 / 1000 * diff),
          ("38.2%", max_price - 382 / 1000 * diff),
          ("50%", max_price - 1 / 2 * diff),
          ("61.8%", max_price - 618 / 1000 * diff),
          ("100% (Low)", min_price)]
  | _, _ => none

/-- `min(fib_levels.items(), key=lambda x: abs(x[1] - current_price))`:
Python's `min` scans left to right and replaces the running best only
on a strictly smaller key, so ties keep the earlier item. -/
def closest_level (levels : List (String × ℚ)) (price : ℚ) :
    Option (String × ℚ) :=
  match levels with
  | [] => none
  | x :: xs =>
    some (xs.foldl (fun best a => if |a.2 - price| < |best.2 - price| then a else best) x)

end StockDashboard

/-! ## S&P 500 scanner (src/sp500_scanner.py) -/

namespace Scanner

/-- Rolling mean of the close series for window `w` at position `t`
(`df['Close'].rolling(window=w).mean()`); `none` models the NaN prefix
where fewer than `w` samples are available. -/
def smaAt (close : List ℚ) (w t : ℕ) : Option ℚ :=
  if w ≤ t + 1 ∧ t < close.length then
    some (((List.range w).map (fun j => close.getD (t - j) 0)).sum / (w : ℚ))
  else none

/-- `.shift(1)` of a rolling mean: the value at the immediately
preceding sample, NaN at position 0. -/
def prevSmaAt (close : List ℚ) (w t : ℕ) : Option ℚ :=
  if t = 0 then none else smaAt close w (t - 1)

/-- Pandas `>` on possibly-NaN values: any comparison with NaN is
`False`. -/
def optGT : Option ℚ → Option ℚ → Bool
  | some a, some b => decide (b < a)
  | _, _ => false

/-- Pandas `<=` on possibly-NaN values: any comparison with NaN is
`False`. -/
def optLE : Option ℚ → Option ℚ → Bool
  | some a, some b => decide (a ≤ b)
  | _, _ => false

/-- The boolean mask `(sma50 > sma200) & (prev_sma50 <= prev_sma200)`
at position `t`. -/
def crossSignal (close : List ℚ) (sw lw t : ℕ) : Bool :=
  optGT (smaAt close sw t) (smaAt close lw t) &&
    optLE (prevSmaAt close sw t) (prevSmaAt close lw t)

/-- `calculate_golden_cross(df, short_window, long_window)`: `none` for
an absent frame or one shorter than the long window (the source's
`(None, None)`); otherwise the most recent index where the cross mask
holds (or `none`), paired with the bullish flag
`sma50.iloc[-1] > sma200.iloc[-1]` (False when either series is empty
or the last values are NaN). -/
def calculate_golden_cross (df : Option (List ℚ)) (sw lw : ℕ) :
    Option (Option ℕ × Bool) :=
  match df with
  | none => none
  | some close =>
    if close.length < lw then none
    else
      let cross_dates := (List.range close.length).filter (fun t => crossSignal close sw lw t)
      let is_bullish := !close.isEmpty &&
        optGT (smaAt close sw (close.length - 1)) (smaAt close lw (close.length - 1))
      some (cross_dates.getLast?, is_bullish)

/-- Provider-side failure of a fetch inside `process_ticker`
(a raised exception from the data provider). -/
inductive ProviderError where
  | failure : ProviderError
deriving DecidableEq, Repr

/-- The per-ticker provider data `process_ticker` consumes: the `info`
lookup (market cap optional within a successful response), the 2-year
daily history, and the 1-month hourly history.  Each fetch may raise. -/
structure TickerData where
  info : Except ProviderError (Option ℚ)
  histDaily : Except ProviderError (List ℚ)
  histHourly : Except ProviderError (List ℚ)

/-- One row of the scanner's result table. -/
structure Row where
  ticker : String
  name : String
  marketCap : Option ℚ
  dailyCrossDate : Option ℕ
  status : String
  hourlyCrossDate : Option ℕ
deriving DecidableEq, Repr

/-- `process_ticker`: fetch info and daily history, run the golden-cross
detector, and if bullish additionally fetch hourly history and run it
again; any raised provider error is caught by the surrounding
`try/except` and turned into `None`. -/
def process_ticker (ticker : String) (security_names : String → Option String)
    (d : TickerData) : Option Row :=
  match d.info with
  | .error _ => none
  | .ok market_cap =>
    match d.histDaily with
    | .error _ => none
    | .ok daily =>
      let gc := calculate_golden_cross (some daily) 50 200
      let cross_date := gc.bind Prod.fst
      let is_bullish := (gc.map Prod.snd).getD false
      let status := if is_bullish then "Bullish" else "Bearish"
      let name := (security_names ticker).getD ticker
      if is_bullish then
        match d.histHourly with
        | .error _ => none
        | .ok hourly =>
          let hgc := calculate_golden_cross (some hourly) 50 200
          some ⟨ticker, name, market_cap, cross_date, status, hgc.bind Prod.fst⟩
      else
        some ⟨ticker, name, market_cap, cross_date, status, none⟩

/-- The fan-in loop of `main`: one future per ticker, iterated in
submission order, keeping only non-`None` results.  `data` supplies the
provider responses each ticker's worker sees.  The function is total:
a failing ticker contributes nothing rather than aborting the scan. -/
def scanResults (tickers : List String) (security_names : String → Option String)
    (data : String → TickerData) : List Row :=
  tickers.filterMap (fun t => process_ticker t security_names (data t))

end Scanner

/-! ## Claim C1: DCF closed form -/

/-- C1: for every input with `discount_rate > terminal_growth`, a known
current free cash flow, a projection horizon of at least one year (the
source raises an uncaught `IndexError` on an empty projection), and a
known non-zero share count (required for the per-share value the claim
describes), `calculate_dcf_value` returns the closed form: the sum of
`current_fcf * (1+g)^(i+1) / (1+r)^(i+1)` over the explicit period,
plus the terminal value `fcf[years-1] * (1+tg) / (r-tg)` discounted by
`(1+r)^years`, plus cash minus debt, all divided by shares
outstanding. -/
theorem dcf_closed_form (c g r tg cash debt s : ℚ) (years : ℕ)
    (hy : 1 ≤ years) (htg : tg < r) (hs : s ≠ 0) :
    DiscountedCashFlow.calculate_dcf_value (some c) years g r tg
        (some cash) (some debt) (some s) =
      Except.ok
        ((((List.range years).map
              (fun i => c * (1 + g) ^ (i + 1) / (1 + r) ^ (i + 1))).sum +
            c * (1 + g) ^ years * (1 + tg) / (r - tg) / (1 + r) ^ years +
            cash - debt) / s) :=
  DiscountedCashFlow.dcf_value_ok c g r tg cash debt s years hy htg hs

/-- Witness for C1 at a concrete input: one projection year,
`c = 100`, `g = 0`, `r = 1/10`, `tg = 0`, cash `5`, debt `3`, two
shares; the per-share value is `501`. -/
theorem dcf_closed_form_witness :
    DiscountedCashFlow.calculate_dcf_value (some 100) 1 0 (1 / 10) 0
        (some 5) (some 3) (some 2) = Except.ok 501 := by
  rw [dcf_closed_form 100 0 (1 / 10) 0 5 3 2 1 le_rfl (by norm_num) (by norm_num)]
  have h1 : List.range 1 = [0] := rfl
  simp only [h1, List.map_cons, List.map_nil, List.sum_cons, List.sum_nil,
    Except.ok.injEq]
  norm_num

/-! ## Claim C10: iterative vs closed-form projection -/

lemma future_fcf_eq (c g : ℚ) :
    StockDashboard.future_fcf c g =
      (List.range 5).map (fun i => c * (1 + g) ^ (i + 1)) := by
  rw [StockDashboard.future_fcf, List.range'_eq_map_range, List.map_map]
  apply List.map_congr_left
  intro i _
  simp [Function.comp, Nat.add_comm]

lemma enterpriseValue_closed (c g r tg : ℚ) :
    StockDashboard.enterpriseValue c g r tg =
      ((List.range 5).map
          (fun i => c * (1 + g) ^ (i + 1) / (1 + r) ^ (i + 1))).sum +
        c * (1 + g) ^ 5 * (1 + tg) / (r - tg) / (1 + r) ^ 5 := by
  rw [StockDashboard.enterpriseValue, future_fcf_eq]
  have h1 : ((List.range 5).map (fun i => c * (1 + g) ^ (i + 1))).getLastD 0 =
      c * (1 + g) ^ 5 := by
    simpa using
      DiscountedCashFlow.getLastD_map_range_succ (fun i => c * (1 + g) ^ (i + 1)) 4 0
  rw [h1]
  simp only [List.length_map, List.length_range]
  congr 1

/-- C10: the iterative projection of the standalone DCF script and the
closed-form projection of the dashboard produce the same cash-flow
sequence for every current FCF, growth rate and horizon
(`fcf[i] = current_fcf * (1+g)^(i+1)`, i.e. the dashboard's
`c * (1+g)^i` over `i = 1..years`), and the two DCF computations agree
on every input at the dashboard's fixed 5-year horizon — in particular
on the enterprise value, hence on the per-share result. -/
theorem dcf_iterative_closed_refinement :
    (∀ (c g : ℚ) (years : ℕ),
      DiscountedCashFlow.projected_fcf c g years =
        (List.range' 1 years).map (fun i => c * (1 + g) ^ i)) ∧
    (∀ c g : ℚ, DiscountedCashFlow.projected_fcf c g 5 = StockDashboard.future_fcf c g) ∧
    (∀ c g r tg cash debt s : ℚ,
      DiscountedCashFlow.calculate_dcf_value (some c) 5 g r tg
          (some cash) (some debt) (some s) =
        StockDashboard.perform_dcf_analysis g r tg (some c)
          (some debt) (some cash) (some s)) := by
  have hproj : ∀ (c g : ℚ) (years : ℕ),
      DiscountedCashFlow.projected_fcf c g years =
        (List.range' 1 years).map (fun i => c * (1 + g) ^ i) := by
    intro c g years
    rw [DiscountedCashFlow.projected_fcf_eq_closed, List.range'_eq_map_range,
      List.map_map]
    apply List.map_congr_left
    intro i _
    simp [Function.comp, Nat.add_comm]
  refine ⟨hproj, ?_, ?_⟩
  · intro c g
    rw [hproj, StockDashboard.future_fcf]
  · intro c g r tg cash debt s
    by_cases hr : r ≤ tg
    · simp [DiscountedCashFlow.calculate_dcf_value,
        DiscountedCashFlow.calculate_dcf_run,
        DiscountedCashFlow.projected_fcf_getLast c g 5 (by norm_num),
        StockDashboard.perform_dcf_analysis, hr]
    · by_cases hs : s = 0
      · simp [DiscountedCashFlow.calculate_dcf_value,
          DiscountedCashFlow.calculate_dcf_run,
          DiscountedCashFlow.projected_fcf_getLast c g 5 (by norm_num),
          StockDashboard.perform_dcf_analysis, hr, hs]
      · rw [DiscountedCashFlow.dcf_value_ok c g r tg cash debt s 5 (by norm_num)
          (not_le.mp hr) hs]
        simp only [StockDashboard.perform_dcf_analysis, hr, if_false,
          Option.getD_some, hs, if_neg hs, enterpriseValue_closed]
        congr 1
        ring

/-! ## Claim C9: behavior when `discount_rate <= terminal_growth` -/

/-- C9 counterexample: at `current_fcf = 100`, two projection years,
`g = 0`, `discount_rate = 1/100 ≤ terminal_growth = 1/50`, the
standalone script fails with `InvalidAssumption` — but only after
computing and printing the projected cash flows (`100`, `100`) and the
present value of the explicit period (`2010000/10201`), so the claim's
"no computation is attempted (no intermediate result is produced)" is
false for it. -/
theorem dcf_rate_check_counterexample :
    DiscountedCashFlow.calculate_dcf_run (some 100) 2 0 (1 / 100) (1 / 50)
        none none none =
      (Except.error DiscountedCashFlow.DCFError.invalidAssumption,
        [100, 100, 2010000 / 10201]) := by
  have h2 : List.range 2 = [0, 1] := rfl
  have hp : DiscountedCashFlow.projected_fcf 100 0 2 = [100, 100] := by
    rw [DiscountedCashFlow.projected_fcf_eq_closed, h2]
    norm_num
  have hl : ([100, 100] : List ℚ).length = 2 := rfl
  have g0 : ([100, 100] : List ℚ).getD 0 0 = 100 := rfl
  have g1 : ([100, 100] : List ℚ).getD 1 0 = 100 := rfl
  have hpv : DiscountedCashFlow.pv_fcf (1 / 100) [100, 100] =
      [10000 / 101, 1000000 / 10201] := by
    rw [DiscountedCashFlow.pv_fcf, hl, h2]
    simp only [List.map_cons, List.map_nil, g0, g1, List.cons.injEq, and_true]
    norm_num
  have hgl : ([100, 100] : List ℚ).getLast? = some 100 := rfl
  simp only [DiscountedCashFlow.calculate_dcf_run, hp, hpv, hgl,
    List.sum_cons, List.sum_nil]
  norm_num

/-- C9 amended: for every input with `discount_rate ≤ terminal_growth`
(current FCF known, horizon at least one year), both DCF computations
fail with `InvalidAssumption` and return no intrinsic value; the
dashboard checks the rates before computing anything, but the
standalone script first computes (and prints) the explicit-period
projection and its present value, which are therefore produced as
intermediate results. -/
theorem dcf_rate_check_behavior (c g r tg : ℚ) (years : ℕ)
    (cash debt shares fcf2 debt2 cash2 shares2 : Option ℚ)
    (hy : 1 ≤ years) (hr : r ≤ tg) :
    DiscountedCashFlow.calculate_dcf_run (some c) years g r tg cash debt shares =
      (Except.error .invalidAssumption,
        DiscountedCashFlow.projected_fcf c g years ++
          [(DiscountedCashFlow.pv_fcf r (DiscountedCashFlow.projected_fcf c g years)).sum]) ∧
    DiscountedCashFlow.projected_fcf c g years ≠ [] ∧
    StockDashboard.perform_dcf_analysis g r tg fcf2 debt2 cash2 shares2 =
      Except.error .invalidAssumption := by
  refine ⟨?_, ?_, ?_⟩
  · simp [DiscountedCashFlow.calculate_dcf_run,
      DiscountedCashFlow.projected_fcf_getLast c g years hy, hr]
  · intro h
    have := DiscountedCashFlow.projected_fcf_length c g years
    rw [h] at this
    simp at this
    omega
  · simp [StockDashboard.perform_dcf_analysis, hr]

/-- Witness for the amended C9 at a concrete input. -/
theorem dcf_rate_check_behavior_witness :
    DiscountedCashFlow.calculate_dcf_run (some 1) 1 0 0 0 none none none =
      (Except.error .invalidAssumption,
        DiscountedCashFlow.projected_fcf 1 0 1 ++
          [(DiscountedCashFlow.pv_fcf 0 (DiscountedCashFlow.projected_fcf 1 0 1)).sum]) ∧
    DiscountedCashFlow.projected_fcf 1 0 1 ≠ [] ∧
    StockDashboard.perform_dcf_analysis 0 0 0 none none none none =
      Except.error .invalidAssumption :=
  dcf_rate_check_behavior 1 0 0 0 1 none none none none none none none
    le_rfl le_rfl

/-! ## Claim C5: monotonicity in the terminal growth rate -/

/-- C5 counterexample: with current FCF `0` (all other inputs held
fixed and `discount_rate = 1/10` above both terminal growth rates),
raising the terminal growth rate from `0` to `1/100` leaves the
intrinsic value unchanged at `0` — the value does not strictly
increase. -/
theorem dcf_terminal_growth_counterexample :
    DiscountedCashFlow.calculate_dcf_value (some 0) 5 0 (1 / 10) 0
        (some 0) (some 0) (some 1) = Except.ok 0 ∧
    DiscountedCashFlow.calculate_dcf_value (some 0) 5 0 (1 / 10) (1 / 100)
        (some 0) (some 0) (some 1) = Except.ok 0 := by
  constructor <;>
  · rw [DiscountedCashFlow.dcf_value_ok 0 0 (1 / 10) _ 0 0 1 5
      (by norm_num) (by norm_num) (by norm_num)]
    simp only [Except.ok.injEq, zero_mul, zero_div]
    simp

/-- C5 amended: for a strictly positive current free cash flow (with
`1 + g > 0`, `1 + r > 0`, a positive share count, and a horizon of at
least one year), increasing `terminal_growth` while keeping
`discount_rate > terminal_growth` strictly increases the intrinsic
value per share. -/
theorem dcf_terminal_growth_monotone (c g r tg1 tg2 cash debt s : ℚ)
    (years : ℕ) (hy : 1 ≤ years) (hc : 0 < c) (hg : 0 < 1 + g)
    (hr1 : 0 < 1 + r) (hs : 0 < s) (h12 : tg1 < tg2) (h2r : tg2 < r) :
    ∃ v1 v2,
      DiscountedCashFlow.calculate_dcf_value (some c) years g r tg1
          (some cash) (some debt) (some s) = Except.ok v1 ∧
      DiscountedCashFlow.calculate_dcf_value (some c) years g r tg2
          (some cash) (some debt) (some s) = Except.ok v2 ∧
      v1 < v2 := by
  have h1r : tg1 < r := h12.trans h2r
  have hsne : s ≠ 0 := ne_of_gt hs
  refine ⟨_, _, DiscountedCashFlow.dcf_value_ok c g r tg1 cash debt s years hy h1r hsne,
    DiscountedCashFlow.dcf_value_ok c g r tg2 cash debt s years hy h2r hsne, ?_⟩
  rw [div_lt_div_iff_of_pos_right hs]
  have hpow : (0 : ℚ) < (1 + r) ^ years := pow_pos hr1 years
  have hL : (0 : ℚ) < c * (1 + g) ^ years := mul_pos hc (pow_pos hg years)
  have hd1 : (0 : ℚ) < r - tg1 := sub_pos.mpr h1r
  have hd2 : (0 : ℚ) < r - tg2 := sub_pos.mpr h2r
  have hTV : c * (1 + g) ^ years * (1 + tg1) / (r - tg1) <
      c * (1 + g) ^ years * (1 + tg2) / (r - tg2) := by
    rw [div_lt_div_iff₀ hd1 hd2]
    have key : (0 : ℚ) < c * (1 + g) ^ years * (tg2 - tg1) * (1 + r) :=
      mul_pos (mul_pos hL (sub_pos.mpr h12)) hr1
    nlinarith [key]
  have := (div_lt_div_iff_of_pos_right hpow).mpr hTV
  linarith [this]

/-- Witness for the amended C5 at a concrete input. -/
theorem dcf_terminal_growth_monotone_witness :
    ∃ v1 v2,
      DiscountedCashFlow.calculate_dcf_value (some 100) 1 0 (1 / 10) 0
          (some 0) (some 0) (some 1) = Except.ok v1 ∧
      DiscountedCashFlow.calculate_dcf_value (some 100) 1 0 (1 / 10) (1 / 100)
          (some 0) (some 0) (some 1) = Except.ok v2 ∧
      v1 < v2 :=
  dcf_terminal_growth_monotone 100 0 (1 / 10) 0 (1 / 100) 0 0 1 1
    le_rfl (by norm_num) (by norm_num) (by norm_num) (by norm_num)
    (by norm_num) (by norm_num)

/-! ## Claim C6: zero or unknown share count -/

/-- C6 counterexample: the dashboard's `perform_dcf_analysis` with an
absent shares-outstanding figure (and otherwise valid inputs:
`fcf = 0`, `g = 0`, `r = 1/10`, `tg = 0`) does not fail with
`MissingShareCount` — the source defaults absent shares to `1`
(`info.get('sharesOutstanding', 1)`) and returns a per-share value. -/
theorem dcf_missing_shares_counterexample :
    StockDashboard.perform_dcf_analysis 0 (1 / 10) 0 (some 0) none none none =
      Except.ok 0 ∧
    (Except.ok (0 : ℚ) ≠
      (Except.error DiscountedCashFlow.DCFError.missingShareCount :
        Except DiscountedCashFlow.DCFError ℚ)) := by
  refine ⟨?_, fun h => Except.noConfusion h⟩
  have hfut : StockDashboard.future_fcf 0 0 = [0, 0, 0, 0, 0] := by
    rw [future_fcf_eq]
    have h5 : List.range 5 = [0, 1, 2, 3, 4] := rfl
    rw [h5]
    norm_num
  have hev : StockDashboard.enterpriseValue 0 0 (1 / 10) 0 = 0 := by
    have h5 : List.range (5 : ℕ) = [0, 1, 2, 3, 4] := rfl
    have hl : ([0, 0, 0, 0, 0] : List ℚ).length = 5 := rfl
    have hgl : ([0, 0, 0, 0, 0] : List ℚ).getLastD 0 = 0 := rfl
    have gd0 : ([0, 0, 0, 0, 0] : List ℚ).getD 0 0 = 0 := rfl
    have gd1 : ([0, 0, 0, 0, 0] : List ℚ).getD 1 0 = 0 := rfl
    have gd2 : ([0, 0, 0, 0, 0] : List ℚ).getD 2 0 = 0 := rfl
    have gd3 : ([0, 0, 0, 0, 0] : List ℚ).getD 3 0 = 0 := rfl
    have gd4 : ([0, 0, 0, 0, 0] : List ℚ).getD 4 0 = 0 := rfl
    simp only [StockDashboard.enterpriseValue, hfut, hl, h5, hgl, gd0, gd1,
      gd2, gd3, gd4, List.map_cons, List.map_nil, List.sum_cons, List.sum_nil,
      zero_div, zero_mul]
    norm_num
  simp only [StockDashboard.perform_dcf_analysis, hev]
  norm_num

/-- C6 amended: the standalone DCF fails with `MissingShareCount` when
shares outstanding are zero or unknown; the dashboard DCF fails with
`MissingShareCount` only when the share count is exactly zero, and when
it is unknown substitutes `1`, returning the equity value itself as the
per-share value. -/
theorem dcf_share_count_handling (c g r tg : ℚ) (years : ℕ)
    (cash debt : Option ℚ) (hy : 1 ≤ years) (htg : tg < r) :
    DiscountedCashFlow.calculate_dcf_value (some c) years g r tg cash debt none =
      Except.error .missingShareCount ∧
    DiscountedCashFlow.calculate_dcf_value (some c) years g r tg cash debt (some 0) =
      Except.error .missingShareCount ∧
    StockDashboard.perform_dcf_analysis g r tg (some c) debt cash (some 0) =
      Except.error .missingShareCount ∧
    StockDashboard.perform_dcf_analysis g r tg (some c) debt cash none =
      Except.ok (StockDashboard.enterpriseValue c g r tg - debt.getD 0 + cash.getD 0) := by
  have hnle : ¬ r ≤ tg := not_le.mpr htg
  refine ⟨?_, ?_, ?_, ?_⟩
  · simp [DiscountedCashFlow.calculate_dcf_value,
      DiscountedCashFlow.calculate_dcf_run,
      DiscountedCashFlow.projected_fcf_getLast c g years hy, hnle]
  · simp [DiscountedCashFlow.calculate_dcf_value,
      DiscountedCashFlow.calculate_dcf_run,
      DiscountedCashFlow.projected_fcf_getLast c g years hy, hnle]
  · simp [StockDashboard.perform_dcf_analysis, hnle]
  · simp [StockDashboard.perform_dcf_analysis, hnle]

/-- Witness for the amended C6 at a concrete input. -/
theorem dcf_share_count_handling_witness :
    DiscountedCashFlow.calculate_dcf_value (some 1) 1 0 1 0 none none none =
      Except.error .missingShareCount ∧
    DiscountedCashFlow.calculate_dcf_value (some 1) 1 0 1 0 none none (some 0) =
      Except.error .missingShareCount ∧
    StockDashboard.perform_dcf_analysis 0 1 0 (some 1) none none (some 0) =
      Except.error .missingShareCount ∧
    StockDashboard.perform_dcf_analysis 0 1 0 (some 1) none none none =
      Except.ok (StockDashboard.enterpriseValue 1 0 1 0 - (none : Option ℚ).getD 0 +
        (none : Option ℚ).getD 0) :=
  dcf_share_count_handling 1 0 1 0 1 none none le_rfl (by norm_num)

/-! ## Claim C2: dividend discount model -/

/-- C2 counterexample: with an empty dividend history and
`required_return = 1/20 ≤ growth_rate = 1/10` (the claim's premise
`r ≤ g`), the DDM fails with `NoDividendData` — the empty-history check
comes first in the source — not with `InvalidAssumption` as the claim
states. -/
theorem ddm_empty_history_counterexample :
    IntrinsicValue.calculate_intrinsic_value [] (1 / 10) (1 / 20) =
      Except.error DDMError.noDividendData ∧
    DDMError.noDividendData ≠ DDMError.invalidAssumption := by
  exact ⟨rfl, by decide⟩

/-- C2 amended: when the dividend history is non-empty and `r > g`,
both DDM implementations return exactly `d * (1+g) / (r-g)` for the
latest dividend `d`; when the history is non-empty and `r ≤ g` they
fail with `InvalidAssumption`; when the history is empty they fail with
`NoDividendData` regardless of the rates. -/
theorem ddm_behavior (dividends : List ℚ) (g r : ℚ) :
    (dividends ≠ [] → g < r →
      IntrinsicValue.calculate_intrinsic_value dividends g r =
        Except.ok (dividends.getLastD 0 * (1 + g) / (r - g)) ∧
      StockDashboard.calculate_ddm_value dividends g r =
        Except.ok (dividends.getLastD 0 * (1 + g) / (r - g))) ∧
    (dividends ≠ [] → r ≤ g →
      IntrinsicValue.calculate_intrinsic_value dividends g r =
        Except.error DDMError.invalidAssumption ∧
      StockDashboard.calculate_ddm_value dividends g r =
        Except.error DDMError.invalidAssumption) ∧
    (dividends = [] →
      IntrinsicValue.calculate_intrinsic_value dividends g r =
        Except.error DDMError.noDividendData ∧
      StockDashboard.calculate_ddm_value dividends g r =
        Except.error DDMError.noDividendData) := by
  refine ⟨?_, ?_, ?_⟩
  · intro hne hgr
    have hnle : ¬ r ≤ g := not_le.mpr hgr
    constructor <;>
      simp [IntrinsicValue.calculate_intrinsic_value,
        StockDashboard.calculate_ddm_value, List.isEmpty_iff, hne, hnle]
  · intro hne hle
    constructor <;>
      simp [IntrinsicValue.calculate_intrinsic_value,
        StockDashboard.calculate_ddm_value, List.isEmpty_iff, hne, hle]
  · intro he
    subst he
    constructor <;>
      simp [IntrinsicValue.calculate_intrinsic_value,
        StockDashboard.calculate_ddm_value]

/-- Witness for the amended C2: latest dividend `2`, `g = 1/20`,
`r = 1/10` gives `2 * (21/20) / (1/20) = 42`. -/
theorem ddm_behavior_witness :
    IntrinsicValue.calculate_intrinsic_value [2] (1 / 20) (1 / 10) =
      Except.ok 42 ∧
    StockDashboard.calculate_ddm_value [2] (1 / 20) (1 / 10) =
      Except.ok 42 := by
  have h := (ddm_behavior [2] (1 / 20) (1 / 10)).1 (by decide) (by norm_num)
  have hgl : ([2] : List ℚ).getLastD 0 = 2 := rfl
  refine ⟨?_, ?_⟩
  · rw [h.1, hgl]
    norm_num
  · rw [h.2, hgl]
    norm_num

/-! ## Claim C3: golden-cross detection -/

namespace Scanner

/-- The claim's characterization of a cross event at time `t`: both
moving averages exist at `t` and at the immediately preceding sample
`t-1`, the short one is strictly above the long one at `t`, and at
`t-1` it was still at or below it (a tie counting as not yet
crossed). -/
def crossCond (close : List ℚ) (sw lw t : ℕ) : Prop :=
  1 ≤ t ∧ ∃ a b a' b',
    smaAt close sw t = some a ∧ smaAt close lw t = some b ∧
    smaAt close sw (t - 1) = some a' ∧ smaAt close lw (t - 1) = some b' ∧
    b < a ∧ a' ≤ b'

lemma optGT_none_left (y : Option ℚ) : optGT none y = false := by
  cases y <;> rfl

lemma optLE_none_left (y : Option ℚ) : optLE none y = false := by
  cases y <;> rfl

lemma optGT_eq_true_iff (x y : Option ℚ) :
    optGT x y = true ↔ ∃ a b, x = some a ∧ y = some b ∧ b < a := by
  cases x <;> cases y <;> simp [optGT]

lemma optLE_eq_true_iff (x y : Option ℚ) :
    optLE x y = true ↔ ∃ a b, x = some a ∧ y = some b ∧ a ≤ b := by
  cases x <;> cases y <;> simp [optLE]

lemma smaAt_some {close : List ℚ} {w t : ℕ} {x : ℚ}
    (hx : smaAt close w t = some x) : w ≤ t + 1 ∧ t < close.length := by
  unfold smaAt at hx
  split at hx
  · assumption
  · exact absurd hx (by simp)

lemma crossCond_lt {close : List ℚ} {sw lw t : ℕ}
    (h : crossCond close sw lw t) : t < close.length := by
  obtain ⟨-, a, b, a', b', ha, -, -, -, -, -⟩ := h
  exact (smaAt_some ha).2

/-- The boolean cross mask agrees with the claim's characterization. -/
lemma crossSignal_iff (close : List ℚ) (sw lw t : ℕ) :
    crossSignal close sw lw t = true ↔ crossCond close sw lw t := by
  rcases Nat.eq_zero_or_pos t with h0 | hpos
  · subst h0
    simp [crossSignal, prevSmaAt, optLE_none_left, crossCond]
  · have ht : ¬ t = 0 := Nat.pos_iff_ne_zero.mp hpos
    simp only [crossSignal, prevSmaAt, ht, if_false, Bool.and_eq_true,
      optGT_eq_true_iff, optLE_eq_true_iff, crossCond]
    constructor
    · rintro ⟨⟨a, b, ha, hb, hab⟩, ⟨a', b', ha', hb', hab'⟩⟩
      exact ⟨hpos, a, b, a', b', ha, hb, ha', hb', hab, hab'⟩
    · rintro ⟨-, a, b, a', b', ha, hb, ha', hb', hab, hab'⟩
      exact ⟨⟨a, b, ha, hb, hab⟩, ⟨a', b', ha', hb', hab'⟩⟩

/-- The last element of the filtered index range is the greatest index
satisfying the predicate (`none` exactly when no index does). -/
lemma filter_range_getLast_spec (p : ℕ → Bool) (n : ℕ) :
    (((List.range n).filter p).getLast? = none ∧ ∀ t, t < n → p t = false) ∨
    (∃ t, ((List.range n).filter p).getLast? = some t ∧ t < n ∧ p t = true ∧
      ∀ u, u < n → p u = true → u ≤ t) := by
  induction n with
  | zero =>
    left
    exact ⟨rfl, fun t ht => absurd ht (Nat.not_lt_zero t)⟩
  | succ m ih =>
    rw [List.range_succ, List.filter_append]
    by_cases hp : p m
    · right
      have h1 : List.filter p [m] = [m] := by simp [hp]
      refine ⟨m, ?_, Nat.lt_succ_self m, hp, fun u hu _ => ?_⟩
      · rw [h1, List.getLast?_concat]
      · omega
    · have h1 : List.filter p [m] = [] := by simp [hp]
      rw [h1, List.append_nil]
      rcases ih with ⟨hnone, hall⟩ | ⟨t, hsome, htn, hpt, hmax⟩
      · left
        refine ⟨hnone, fun t ht => ?_⟩
        rcases Nat.lt_succ_iff_lt_or_eq.mp ht with h | h
        · exact hall t h
        · subst h
          simpa using hp
      · right
        refine ⟨t, hsome, htn.trans (Nat.lt_succ_self m), hpt, fun u hu hpu => ?_⟩
        rcases Nat.lt_succ_iff_lt_or_eq.mp hu with h | h
        · exact hmax u h hpu
        · subst h
          exact absurd hpu (by simpa using hp)

end Scanner

/-- C3: for a series of length at least `long_window`, the detector
reports a cross date that is the most recent time `t` with
`short_MA[t] > long_MA[t]` and `short_MA[t-1] ≤ long_MA[t-1]` (both
averages existing at `t` and `t-1`; a tie on the prior sample counts as
not yet crossed), and reports no date exactly when no such `t` exists;
for an absent series or one shorter than `long_window`, the result is
the insufficient-data outcome (`None, None` in the source), not an
error. -/
theorem golden_cross_detection (close : List ℚ) (sw lw : ℕ) :
    Scanner.calculate_golden_cross none sw lw = none ∧
    (close.length < lw → Scanner.calculate_golden_cross (some close) sw lw = none) ∧
    (lw ≤ close.length →
      ∃ cd b, Scanner.calculate_golden_cross (some close) sw lw = some (cd, b) ∧
        ((cd = none ∧ ∀ t, ¬ Scanner.crossCond close sw lw t) ∨
         (∃ t, cd = some t ∧ Scanner.crossCond close sw lw t ∧
           ∀ u, Scanner.crossCond close sw lw u → u ≤ t))) := by
  refine ⟨rfl, fun h => by simp [Scanner.calculate_golden_cross, h], fun h => ?_⟩
  have hnl : ¬ close.length < lw := not_lt.mpr h
  have heq : Scanner.calculate_golden_cross (some close) sw lw =
      some (((List.range close.length).filter
          (fun t => Scanner.crossSignal close sw lw t)).getLast?,
        !close.isEmpty && Scanner.optGT
          (Scanner.smaAt close sw (close.length - 1))
          (Scanner.smaAt close lw (close.length - 1))) := by
    simp only [Scanner.calculate_golden_cross, hnl, if_false]
  refine ⟨_, _, heq, ?_⟩
  rcases Scanner.filter_range_getLast_spec
      (fun t => Scanner.crossSignal close sw lw t) close.length with
    ⟨hnone, hall⟩ | ⟨t, hsome, htn, hpt, hmax⟩
  · left
    refine ⟨hnone, fun t hc => ?_⟩
    have hlt := Scanner.crossCond_lt hc
    have hfalse := hall t hlt
    have htrue := (Scanner.crossSignal_iff close sw lw t).mpr hc
    rw [htrue] at hfalse
    exact Bool.noConfusion hfalse
  · right
    refine ⟨t, hsome, (Scanner.crossSignal_iff close sw lw t).mp hpt,
      fun u hu => ?_⟩
    exact hmax u (Scanner.crossCond_lt hu)
      ((Scanner.crossSignal_iff close sw lw u).mpr hu)

/-- Witness for C3: the three-sample series `[1, 1, 5]` with windows 1
and 2 has length ≥ 2, and the detector reports a result whose cross
date is the most recent crossing time. -/
theorem golden_cross_detection_witness :
    ∃ cd b, Scanner.calculate_golden_cross (some [1, 1, 5]) 1 2 = some (cd, b) ∧
      ((cd = none ∧ ∀ t, ¬ Scanner.crossCond [1, 1, 5] 1 2 t) ∨
       (∃ t, cd = some t ∧ Scanner.crossCond [1, 1, 5] 1 2 t ∧
         ∀ u, Scanner.crossCond [1, 1, 5] 1 2 u → u ≤ t)) :=
  (golden_cross_detection [1, 1, 5] 1 2).2.2 (by norm_num)

/-! ## Claim C7: RSI at the all-gain / all-loss boundaries -/

namespace FVal

lemma div_fin_fin {a b : ℚ} (hb : b ≠ 0) :
    FVal.div (.fin a) (.fin b) = .fin (a / b) := by
  simp [FVal.div, hb]

lemma div_fin_zero_pos {a : ℚ} (ha : 0 < a) :
    FVal.div (.fin a) (.fin 0) = .posInf := by
  simp [FVal.div, ne_of_gt ha, ha]

lemma add_fin_posInf (a : ℚ) : FVal.add (.fin a) .posInf = .posInf := rfl

lemma div_fin_posInf (a : ℚ) : FVal.div (.fin a) .posInf = .fin 0 := rfl

lemma add_fin_fin (a b : ℚ) : FVal.add (.fin a) (.fin b) = .fin (a + b) := rfl

lemma sub_fin_fin (a b : ℚ) : FVal.sub (.fin a) (.fin b) = .fin (a - b) := by
  simp [FVal.sub, FVal.neg, FVal.add, sub_eq_add_neg]

end FVal

namespace StockDashboard

lemma deltaAt_in_window {close : List ℚ} {w t j : ℕ} (hwt : w ≤ t)
    (htn : t < close.length) (hj : j < w) :
    deltaAt close (t - j) =
      some (close.getD (t - j) 0 - close.getD (t - j - 1) 0) := by
  have h1 : 1 ≤ t - j := by omega
  have h2 : t - j < close.length := by omega
  simp [deltaAt, h1, h2]

end StockDashboard

/-- C7: whenever all `w` price deltas in the RSI window ending at `t`
are strictly positive (so the rolling loss mean is exactly zero), the
RSI at `t` is exactly 100 — the float quotient `gain/0.0` is `+inf` and
`100 - 100/(1 + inf)` collapses to 100; and whenever all deltas are
strictly negative (zero gain mean), the RSI at `t` is exactly 0.  The
window is taken with `w ≤ t` so that every sample in it has a defined
delta. -/
theorem rsi_boundary (close : List ℚ) (w t : ℕ) (hw : 1 ≤ w) (hwt : w ≤ t)
    (htn : t < close.length) :
    ((∀ j, j < w → 0 < close.getD (t - j) 0 - close.getD (t - j - 1) 0) →
      StockDashboard.rsiAt close w t = some (.fin 100)) ∧
    ((∀ j, j < w → close.getD (t - j) 0 - close.getD (t - j - 1) 0 < 0) →
      StockDashboard.rsiAt close w t = some (.fin 0)) := by
  have hcond : w ≤ t + 1 ∧ t < close.length := ⟨hwt.trans (Nat.le_succ t), htn⟩
  have hwq : (0 : ℚ) < (w : ℚ) := by
    exact_mod_cast Nat.lt_of_lt_of_le Nat.zero_lt_one hw
  have hmapne : (List.range w).map (fun j => StockDashboard.gainAt close (t - j)) ≠ [] := by
    simp only [ne_eq, List.map_eq_nil_iff, List.range_eq_nil]
    omega
  constructor
  · intro hpos
    have hgain : ∀ j, j < w → StockDashboard.gainAt close (t - j) =
        close.getD (t - j) 0 - close.getD (t - j - 1) 0 := by
      intro j hj
      simp only [StockDashboard.gainAt, StockDashboard.deltaAt_in_window hwt htn hj]
      rw [if_pos (hpos j hj)]
    have hloss : ∀ j, j < w → StockDashboard.lossAt close (t - j) = 0 := by
      intro j hj
      simp only [StockDashboard.lossAt, StockDashboard.deltaAt_in_window hwt htn hj]
      rw [if_neg (not_lt.mpr (le_of_lt (hpos j hj)))]
    have hlsum : ((List.range w).map (fun j => StockDashboard.lossAt close (t - j))).sum = 0 := by
      apply List.sum_eq_zero
      intro x hx
      simp only [List.mem_map, List.mem_range] at hx
      obtain ⟨j, hj, rfl⟩ := hx
      exact hloss j hj
    have hgsum : 0 < ((List.range w).map (fun j => StockDashboard.gainAt close (t - j))).sum := by
      apply List.sum_pos
      · intro x hx
        simp only [List.mem_map, List.mem_range] at hx
        obtain ⟨j, hj, rfl⟩ := hx
        rw [hgain j hj]
        exact hpos j hj
      · exact hmapne
    have hg : 0 < ((List.range w).map (fun j => StockDashboard.gainAt close (t - j))).sum / (w : ℚ) :=
      div_pos hgsum hwq
    unfold StockDashboard.rsiAt
    rw [if_pos hcond]
    simp only [hlsum, zero_div, FVal.div_fin_zero_pos hg, FVal.add_fin_posInf,
      FVal.div_fin_posInf, FVal.sub_fin_fin]
    norm_num
  · intro hneg
    have hgain : ∀ j, j < w → StockDashboard.gainAt close (t - j) = 0 := by
      intro j hj
      simp only [StockDashboard.gainAt, StockDashboard.deltaAt_in_window hwt htn hj]
      rw [if_neg (not_lt.mpr (le_of_lt (hneg j hj)))]
    have hloss : ∀ j, j < w → StockDashboard.lossAt close (t - j) =
        -(close.getD (t - j) 0 - close.getD (t - j - 1) 0) := by
      intro j hj
      simp only [StockDashboard.lossAt, StockDashboard.deltaAt_in_window hwt htn hj]
      rw [if_pos (hneg j hj)]
    have hgsum : ((List.range w).map (fun j => StockDashboard.gainAt close (t - j))).sum = 0 := by
      apply List.sum_eq_zero
      intro x hx
      simp only [List.mem_map, List.mem_range] at hx
      obtain ⟨j, hj, rfl⟩ := hx
      exact hgain j hj
    have hlsum : 0 < ((List.range w).map (fun j => StockDashboard.lossAt close (t - j))).sum := by
      apply List.sum_pos
      · intro x hx
        simp only [List.mem_map, List.mem_range] at hx
        obtain ⟨j, hj, rfl⟩ := hx
        rw [hloss j hj]
        exact neg_pos.mpr (hneg j hj)
      · simp only [ne_eq, List.map_eq_nil_iff, List.range_eq_nil]
        omega
    have hl : 0 < ((List.range w).map (fun j => StockDashboard.lossAt close (t - j))).sum / (w : ℚ) :=
      div_pos hlsum hwq
    unfold StockDashboard.rsiAt
    rw [if_pos hcond]
    simp only [hgsum, zero_div, FVal.div_fin_fin (ne_of_gt hl),
      FVal.add_fin_fin, FVal.sub_fin_fin]
    norm_num [FVal.div_fin_fin, FVal.sub_fin_fin]

/-- Witness for C7: on `[1, 2, 3]` (all deltas `+1`) the RSI with
window 2 at the last sample is 100; on `[3, 2, 1]` (all deltas `-1`) it
is 0. -/
theorem rsi_boundary_witness :
    StockDashboard.rsiAt [1, 2, 3] 2 2 = some (.fin 100) ∧
    StockDashboard.rsiAt [3, 2, 1] 2 2 = some (.fin 0) := by
  have g0 : ([1, 2, 3] : List ℚ).getD 0 0 = 1 := rfl
  have g1 : ([1, 2, 3] : List ℚ).getD 1 0 = 2 := rfl
  have g2 : ([1, 2, 3] : List ℚ).getD 2 0 = 3 := rfl
  have d0 : ([3, 2, 1] : List ℚ).getD 0 0 = 3 := rfl
  have d1 : ([3, 2, 1] : List ℚ).getD 1 0 = 2 := rfl
  have d2 : ([3, 2, 1] : List ℚ).getD 2 0 = 1 := rfl
  constructor
  · apply (rsi_boundary [1, 2, 3] 2 2 (by norm_num) le_rfl (by norm_num)).1
    intro j hj
    interval_cases j
    · norm_num [g2, g1]
    · norm_num [g1, g0]
  · apply (rsi_boundary [3, 2, 1] 2 2 (by norm_num) le_rfl (by norm_num)).2
    intro j hj
    interval_cases j
    · norm_num [d2, d1]
    · norm_num [d1, d0]

/-! ## Claim C8: Fibonacci levels and nearest-level selection -/

namespace StockDashboard

/-- A left fold with strict-improvement replacement returns the first
element of the list attaining the minimum key: it is an element, no key
is smaller, and every element strictly before it has a strictly larger
key. -/
lemma foldl_min_first {α : Type} (f : α → ℚ) (d : α) :
    ∀ (xs : List α) (x : α),
      ∃ i, i < (x :: xs).length ∧
        (x :: xs).getD i d =
          xs.foldl (fun best a => if f a < f best then a else best) x ∧
        (∀ j, j < (x :: xs).length →
          f (xs.foldl (fun best a => if f a < f best then a else best) x) ≤
            f ((x :: xs).getD j d)) ∧
        (∀ j, j < i →
          f (xs.foldl (fun best a => if f a < f best then a else best) x) <
            f ((x :: xs).getD j d)) := by
  intro xs
  induction xs with
  | nil =>
    intro x
    refine ⟨0, by simp, rfl, ?_, fun j hj => absurd hj (Nat.not_lt_zero j)⟩
    intro j hj
    have hj0 : j = 0 := by
      simp only [List.length_cons, List.length_nil] at hj
      omega
    subst hj0
    simp
  | cons a rest ih =>
    intro x
    by_cases hfa : f a < f x
    · obtain ⟨i', hi', hget, hmin, hstrict⟩ := ih a
      refine ⟨i' + 1, by simpa using hi', ?_, ?_, ?_⟩
      · rw [List.foldl_cons, if_pos hfa]
        simpa using hget
      · intro j hj
        rw [List.foldl_cons, if_pos hfa]
        match j with
        | 0 =>
          exact le_of_lt (lt_of_le_of_lt (hmin 0 (by simp)) hfa)
        | k + 1 =>
          exact hmin k (by simpa using hj)
      · intro j hj
        rw [List.foldl_cons, if_pos hfa]
        match j with
        | 0 =>
          exact lt_of_le_of_lt (hmin 0 (by simp)) hfa
        | k + 1 =>
          exact hstrict k (by omega)
    · obtain ⟨i', hi', hget, hmin, hstrict⟩ := ih x
      have hxa : f x ≤ f a := not_lt.mp hfa
      match i', hi', hget, hmin, hstrict with
      | 0, hi', hget, hmin, hstrict =>
        refine ⟨0, by simp, ?_, ?_, fun j hj => absurd hj (Nat.not_lt_zero j)⟩
        · rw [List.foldl_cons, if_neg hfa]
          simpa using hget
        · intro j hj
          rw [List.foldl_cons, if_neg hfa]
          match j with
          | 0 => exact hmin 0 (by simp)
          | 1 => exact le_trans (by simpa using hmin 0 (by simp)) (by simpa using hxa)
          | k + 2 => exact hmin (k + 1) (by simpa using hj)
      | k + 1, hi', hget, hmin, hstrict =>
        refine ⟨k + 2, by simpa using hi', ?_, ?_, ?_⟩
        · rw [List.foldl_cons, if_neg hfa]
          simpa using hget
        · intro j hj
          rw [List.foldl_cons, if_neg hfa]
          match j with
          | 0 => exact hmin 0 (by simp)
          | 1 => exact le_trans (hmin 0 (by simp)) hxa
          | j + 2 => exact hmin (j + 1) (by simpa using hj)
        · intro j hj
          rw [List.foldl_cons, if_neg hfa]
          match j with
          | 0 => exact hstrict 0 (by omega)
          | 1 => exact lt_of_lt_of_le (hstrict 0 (by omega)) hxa
          | j + 2 => exact hstrict (j + 1) (by omega)

/-- The `min(..., key=...)` selection returns the first level attaining
the minimal absolute distance to the price. -/
lemma closest_level_spec (levels : List (String × ℚ)) (price : ℚ)
    (hne : levels ≠ []) :
    ∃ c i, closest_level levels price = some c ∧ i < levels.length ∧
      levels.getD i ("", 0) = c ∧
      (∀ j, j < levels.length →
        |c.2 - price| ≤ |(levels.getD j ("", 0)).2 - price|) ∧
      (∀ j, j < i → |c.2 - price| < |(levels.getD j ("", 0)).2 - price|) := by
  obtain ⟨x, xs, rfl⟩ := List.exists_cons_of_ne_nil hne
  obtain ⟨i, hi, hget, hmin, hstrict⟩ :=
    foldl_min_first (fun a => |a.2 - price|) ("", 0) xs x
  exact ⟨_, i, rfl, hi, hget, hmin, hstrict⟩

end StockDashboard

/-- C8: for a series with non-empty High and Low columns, the levels
returned are exactly `high - ratio * (high - low)` at the ratios
0, 23.6%, 38.2%, 50%, 61.8% and 100% in definition order, and the
nearest level to the current price is the one of minimal absolute
distance, ties resolved to the level occurring first in definition
order (the earlier-listed levels are strictly farther only before the
selected index). -/
theorem fibonacci_levels_spec (highs lows : List ℚ) (price : ℚ)
    (hh : highs ≠ []) (hl : lows ≠ []) :
    ∃ mx mn L, StockDashboard.seriesMax highs = some mx ∧
      StockDashboard.seriesMin lows = some mn ∧
      StockDashboard.calculate_fibonacci_levels highs lows = some L ∧
      L = [("0% (High)", mx - 0 * (mx - mn)),
           ("23.6%", mx - 236 / 1000 * (mx - mn)),
           ("38.2%", mx - 382 / 1000 * (mx - mn)),
           ("50%", mx - 1 / 2 * (mx - mn)),
           ("61.8%", mx - 618 / 1000 * (mx - mn)),
           ("100% (Low)", mx - 1 * (mx - mn))] ∧
      ∃ c i, StockDashboard.closest_level L price = some c ∧ i < L.length ∧
        L.getD i ("", 0) = c ∧
        (∀ j, j < L.length → |c.2 - price| ≤ |(L.getD j ("", 0)).2 - price|) ∧
        (∀ j, j < i → |c.2 - price| < |(L.getD j ("", 0)).2 - price|) := by
  obtain ⟨x, xs, rfl⟩ := List.exists_cons_of_ne_nil hh
  obtain ⟨y, ys, rfl⟩ := List.exists_cons_of_ne_nil hl
  refine ⟨xs.foldl max x, ys.foldl min y, _, rfl, rfl, rfl, ?_, ?_⟩
  · simp only [List.cons.injEq, Prod.mk.injEq, true_and, and_true]
    refine ⟨by ring, by ring⟩
  · exact StockDashboard.closest_level_spec _ price (by simp)

/-- Witness for C8 at the spec's own example: High max 100, Low min 0.
The 50% level is exactly 50 and the level nearest to price 51 is the
50% level (distance 1). -/
theorem fibonacci_levels_spec_witness :
    (∃ mx mn L, StockDashboard.seriesMax [100] = some mx ∧
      StockDashboard.seriesMin [0] = some mn ∧
      StockDashboard.calculate_fibonacci_levels [100] [0] = some L ∧
      L = [("0% (High)", mx - 0 * (mx - mn)),
           ("23.6%", mx - 236 / 1000 * (mx - mn)),
           ("38.2%", mx - 382 / 1000 * (mx - mn)),
           ("50%", mx - 1 / 2 * (mx - mn)),
           ("61.8%", mx - 618 / 1000 * (mx - mn)),
           ("100% (Low)", mx - 1 * (mx - mn))] ∧
      ∃ c i, StockDashboard.closest_level L (51 : ℚ) = some c ∧ i < L.length ∧
        L.getD i ("", 0) = c ∧
        (∀ j, j < L.length → |c.2 - 51| ≤ |(L.getD j ("", 0)).2 - 51|) ∧
        (∀ j, j < i → |c.2 - 51| < |(L.getD j ("", 0)).2 - 51|)) ∧
    StockDashboard.closest_level
        [("0% (High)", 100), ("23.6%", 764 / 10), ("38.2%", 618 / 10),
         ("50%", 50), ("61.8%", 382 / 10), ("100% (Low)", 0)] 51 =
      some ("50%", 50) := by
  constructor
  · exact fibonacci_levels_spec [100] [0] 51 (by simp) (by simp)
  · simp only [StockDashboard.closest_level, List.foldl_cons, List.foldl_nil]
    norm_num [abs, max_def]

/-! ## Claim C4: scanner failure isolation -/

namespace Scanner

lemma length_filterMap_eq_countP {α β : Type} (f : α → Option β) (l : List α) :
    (l.filterMap f).length = l.countP (fun a => (f a).isSome) := by
  induction l with
  | nil => rfl
  | cons a l ih =>
    rcases h : f a with _ | b
    · rw [List.filterMap_cons_none h, List.countP_cons]
      simp [h, ih]
    · rw [List.filterMap_cons_some h, List.countP_cons]
      simp [h, ih]

end Scanner

/-- C4: the scan is a total function (a per-ticker failure cannot abort
it); its result table has exactly one row per ticker whose processing
succeeded — its length equals the count of successful tickers, and its
rows are exactly the successful tickers' rows — and in particular, for
3 tickers of which one fails, the table has exactly 2 rows. -/
theorem scanner_failure_isolation :
    (∀ (tickers : List String) (names : String → Option String)
        (data : String → Scanner.TickerData),
      (Scanner.scanResults tickers names data).length =
        tickers.countP
          (fun t => (Scanner.process_ticker t names (data t)).isSome)) ∧
    (∀ (tickers : List String) (names : String → Option String)
        (data : String → Scanner.TickerData) (r : Scanner.Row),
      r ∈ Scanner.scanResults tickers names data ↔
        ∃ t, t ∈ tickers ∧ Scanner.process_ticker t names (data t) = some r) ∧
    (∀ (a b c : String) (names : String → Option String)
        (data : String → Scanner.TickerData),
      (Scanner.process_ticker a names (data a)).isSome →
      Scanner.process_ticker b names (data b) = none →
      (Scanner.process_ticker c names (data c)).isSome →
      (Scanner.scanResults [a, b, c] names data).length = 2) := by
  refine ⟨?_, ?_, ?_⟩
  · intro tickers names data
    exact Scanner.length_filterMap_eq_countP _ tickers
  · intro tickers names data r
    exact List.mem_filterMap
  · intro a b c names data h1 h2 h3
    rw [Scanner.scanResults, Scanner.length_filterMap_eq_countP]
    simp [List.countP_cons, h1, h2, h3]

/-- Witness for C4: three tickers of which the middle one's `info`
fetch raises; the result table has exactly 2 rows. -/
theorem scanner_failure_isolation_witness :
    (Scanner.scanResults ["A", "B", "C"] (fun _ => none)
        (fun t => if t = "B" then
            ⟨Except.error Scanner.ProviderError.failure, Except.ok [], Except.ok []⟩
          else ⟨Except.ok none, Except.ok [], Except.ok []⟩)).length = 2 :=
  scanner_failure_isolation.2.2 "A" "B" "C" (fun _ => none)
    (fun t => if t = "B" then
        ⟨Except.error Scanner.ProviderError.failure, Except.ok [], Except.ok []⟩
      else ⟨Except.ok none, Except.ok [], Except.ok []⟩)
    (by rfl) (by rfl) (by rfl)

end SP500
